import Mathlib

/-!
Shallow embedding of the structural-corruption / column-inventory pipeline of
the portfolio repository (scripts/cleaning/data_inventory_master_pass1.py,
scripts/cleaning/generate_cleaned_datasets.py,
scripts/cleaning/generate_comprehensive_analysis.py), together with proofs of
the behavioural properties stated for it.

Conventions used throughout:
* a loaded table column (pandas Series of dtype str) is a `List (Option String)`,
  `none` standing for a missing value (NaN);
* a parsed delimited file is a `List (List String)` of rows of fields, the
  first row being the header;
* file access that can fail is an `Except String` value carrying the raised
  message in the error case.
-/

/-- Value of a list of decimal digit characters, most significant first. -/
def digitsVal (l : List Char) : Nat :=
  l.foldl (fun a c => 10 * a + (c.toNat - 48)) 0

/-- A parsed decimal number, kept exactly as mantissa times a power of ten
(the value is num * 10 ^ exp10).  Python uses binary floating point; the
exact representation is immaterial for the properties below, which only use
parse success and integrality. -/
structure PyFloat where
  num : Int
  exp10 : Int
deriving DecidableEq

/-- float.is_integer: whether the value num * 10 ^ exp10 is an integer. -/
def PyFloat.isInteger (x : PyFloat) : Bool :=
  if 0 ≤ x.exp10 then true
  else decide (x.num % (10 : Int) ^ (-x.exp10).toNat = 0)

/-- Numeric-string parsing as performed by `pd.to_numeric` on string values:
optional sign, integer digits, optional fractional part, optional exponent,
surrounding whitespace ignored.  The special tokens inf and nan are not
modelled. -/
def parseNumeric (s : String) : Option PyFloat :=
  let l := (((s.toList.dropWhile Char.isWhitespace).reverse).dropWhile Char.isWhitespace).reverse
  let sgnRest : Int × List Char :=
    match l with
    | '+' :: r => (1, r)
    | '-' :: r => (-1, r)
    | r => (1, r)
  let sgn := sgnRest.1
  let l1 := sgnRest.2
  let ip := l1.takeWhile Char.isDigit
  let l2 := l1.drop ip.length
  let fpRest : List Char × List Char :=
    match l2 with
    | '.' :: r => (r.takeWhile Char.isDigit, r.drop (r.takeWhile Char.isDigit).length)
    | r => ([], r)
  let fp := fpRest.1
  let l3 := fpRest.2
  if ip.length = 0 ∧ fp.length = 0 then none
  else
    let mant : Int := sgn * (digitsVal (ip ++ fp) : Int)
    match l3 with
    | [] => some { num := mant, exp10 := -(fp.length : Int) }
    | e :: r =>
      if e = 'e' ∨ e = 'E' then
        let esgnRest : Int × List Char :=
          match r with
          | '+' :: t => (1, t)
          | '-' :: t => (-1, t)
          | t => (1, t)
        let ed := esgnRest.2.takeWhile Char.isDigit
        if ed.length ≠ 0 ∧ esgnRest.2.drop ed.length = [] then
          some { num := mant, exp10 := esgnRest.1 * (digitsVal ed : Int) - (fp.length : Int) }
        else none
      else none

/-- The YYYY-MM-DD shape on exactly ten characters. -/
def isYmd10 : List Char → Bool
  | [a, b, c, d, e, f, g, h, i, j] =>
    a.isDigit && b.isDigit && c.isDigit && d.isDigit && e == '-' &&
      f.isDigit && g.isDigit && h == '-' && i.isDigit && j.isDigit
  | _ => false

/-- First alternative of the looks_like_date pattern.  In the Python source
the pattern is an alternation whose dollar anchor attaches only to the second
alternative, and re.match anchors only at the start: so this alternative is a
pure ten-character prefix test, trailing characters unconstrained. -/
def matchYmdStart (l : List Char) : Bool :=
  isYmd10 (l.take 10)

/-- Consume exactly n decimal digits, returning the rest of the input. -/
def eatDigits : Nat → List Char → Option (List Char)
  | 0, l => some l
  | _ + 1, [] => none
  | n + 1, c :: l => if c.isDigit then eatDigits n l else none

def sepOk (c : Char) : Bool :=
  c == '/' || c == '-'

/-- Second alternative of the date pattern: one or two digits, a slash or
dash, one or two digits, a slash or dash, two to four digits, consuming the
whole input (the enumeration over run lengths realises the regex
backtracking). -/
def mdyCore (l : List Char) : Bool :=
  [1, 2].any fun a =>
    [1, 2].any fun b =>
      [2, 3, 4].any fun c =>
        match eatDigits a l with
        | none => false
        | some r1 =>
          match r1 with
          | [] => false
          | s1 :: r2 =>
            sepOk s1 &&
              (match eatDigits b r2 with
              | none => false
              | some r3 =>
                match r3 with
                | [] => false
                | s2 :: r4 =>
                  sepOk s2 &&
                    (match eatDigits c r4 with
                    | none => false
                    | some r5 => r5.isEmpty))

/-- The second alternative with its end anchor; in a non-multiline Python
pattern the dollar also matches just before one trailing newline. -/
def mdyFull (l : List Char) : Bool :=
  mdyCore l || (l.getLast? == some '\n' && mdyCore l.dropLast)

/-- Truthiness of re.match with the looks_like_date pattern on one value. -/
def matchesDatePat (s : String) : Bool :=
  matchYmdStart s.toList || mdyFull s.toList

/-- looks_like_date from data_inventory_master_pass1.py.  The pandas seeded
random sample cannot be expressed in a pure embedding; the chosen sample is
passed explicitly as the list `pick` of positions into the first 5000
non-null values (theorems below quantify over every such choice, hence in
particular over the one the seeded generator makes).  The float threshold
comparison mean > 0.7 is modelled as the exact rational comparison. -/
def looksLikeDate (vals : List (Option String)) (pick : List Nat) : Bool :=
  let sv := (vals.filterMap id).take 5000
  if sv.isEmpty then false
  else
    let chosen := pick.filterMap fun i => sv[i]?
    decide (7 * chosen.length < 10 * (chosen.countP fun v => matchesDatePat v))

/-- The per-column numeric flag of analyze_dataset:
as_num = pd.to_numeric(s, errors=coerce); is_numeric = as_num.notna().sum() > 0. -/
def columnIsNumeric (vals : List (Option String)) : Bool :=
  decide (0 < ((vals.map fun v => v.bind parseNumeric).countP fun o => o.isSome))

/-- The per-column date flag of analyze_dataset:
looks_date = False if is_numeric else looks_like_date(s). -/
def columnLooksDate (vals : List (Option String)) (pick : List Nat) : Bool :=
  if columnIsNumeric vals then false else looksLikeDate vals pick

/-- One recorded offending row of the structural scan. -/
structure Offender where
  line_number : Nat
  field_count : Nat
  preview : List String
deriving DecidableEq

/-- Result record of structural_scan.  The Counter of per-row field counts is
represented by the list `fieldCounts` of the observed field counts in row
order; bucket keys and frequencies are derived from it below. -/
structure ScanResult where
  expected_ncols : Option Nat
  fieldCounts : List Nat
  offending_examples : List Offender
  total_lines : Nat
  error : Option String
deriving DecidableEq

/-- Python truthiness test guarding offender recording:
`if expected_ncols and n != expected_ncols and len(offenders) < sample_offenders`
(an expected count of None or 0 is falsy). -/
def offenderCond (expected : Option Nat) (n k cap : Nat) : Bool :=
  match expected with
  | none => false
  | some e => decide (e ≠ 0) && decide (n ≠ e) && decide (k < cap)

/-- Offender collection of the scan loop: `i` is the csv.reader row index of
the current row (the header had index 0), `k` the number of offenders
recorded so far. -/
def offendersAux (expected : Option Nat) (cap : Nat) :
    List (List String) → Nat → Nat → List Offender
  | [], _, _ => []
  | r :: rs, i, k =>
    if offenderCond expected r.length k cap then
      { line_number := i + 1, field_count := r.length, preview := r.take 5 } ::
        offendersAux expected cap rs (i + 1) (k + 1)
    else
      offendersAux expected cap rs (i + 1) k

/-- The successful-read body of structural_scan over the parsed rows.  The
BOM strip on the first header field rewrites that field's text only and never
any output of the function (the expected count is the header's length either
way), so it needs no counterpart here. -/
def structuralScanRows (rows : List (List String)) (expectedIn : Option Nat) (cap : Nat) :
    ScanResult :=
  match rows with
  | [] =>
    { expected_ncols := expectedIn, fieldCounts := [], offending_examples := [],
      total_lines := 0, error := none }
  | header :: data =>
    let expected : Option Nat :=
      match expectedIn with
      | some e => some e
      | none => some header.length
    { expected_ncols := expected
      fieldCounts := data.map List.length
      offending_examples := offendersAux expected cap data 1 0
      total_lines := data.length + 1
      error := none }

/-- Bucket keys of the field-count Counter (the distinct observed counts). -/
def histBuckets (r : ScanResult) : List Nat :=
  r.fieldCounts.dedup

/-- Counter frequency of one field count. -/
def histCount (r : ScanResult) (n : Nat) : Nat :=
  r.fieldCounts.count n

/-- Keys of anomalous_field_counts: the histogram keys other than the
expected column count. -/
def anomalousBuckets (r : ScanResult) : List Nat :=
  r.fieldCounts.dedup.filter fun n => decide (r.expected_ncols ≠ some n)

/-- Frequency recorded in anomalous_field_counts for one field count. -/
def anomalousCount (r : ScanResult) (n : Nat) : Nat :=
  if r.expected_ncols = some n then 0 else r.fieldCounts.count n

/-- structural_scan including its outer try/except: file access is modelled
as an Except value (ok rows = the parsed csv rows, error = the message of the
exception raised while opening or reading).  The except branch returns the
soft-error record with empty histogram, anomalies and offender list. -/
def structuralScanFile (input : Except String (List (List String)))
    (expectedIn : Option Nat) (cap : Nat) : ScanResult :=
  match input with
  | Except.ok rows => structuralScanRows rows expectedIn cap
  | Except.error e =>
    { expected_ncols := expectedIn, fieldCounts := [], offending_examples := [],
      total_lines := 0, error := some e }

/-- One BigQuery schema field as produced by infer_bigquery_type. -/
structure SchemaField where
  name : String
  type : String
  mode : String
  description : String
deriving DecidableEq

/-- series.dropna().astype(str) filtered of empty strings (the column was
loaded with dtype=str, so values are already strings). -/
def nonNullValues (values : List (Option String)) : List String :=
  (values.filterMap id).filter fun v => decide (v ≠ "")

/-- A numeric string whose parsed value is integral (float.is_integer). -/
def isIntegralNumStr (v : String) : Bool :=
  match parseNumeric v with
  | some x => x.isInteger
  | none => false

/-- The fixed boolean token set of the BOOLEAN check. -/
def boolTokens : List String :=
  ["true", "false", "yes", "no", "1", "0", "y", "n"]

/-- str.startswith, on the character lists. -/
def strStarts (s pat : String) : Bool :=
  pat.data.isPrefixOf s.data

/-- str.lower, on the character lists. -/
def strLower (s : String) : String :=
  String.mk (s.data.map Char.toLower)

/-- First timestamp pattern of infer_bigquery_type: fully anchored
YYYY-MM-DD (the dollar also matches before one trailing newline). -/
def ymdFull (l : List Char) : Bool :=
  isYmd10 l || (l.getLast? == some '\n' && isYmd10 l.dropLast)

/-- ISO datetime shape on exactly nineteen characters. -/
def isIso19 : List Char → Bool
  | [a, b, c, d, e, f, g, h, i, j, t, k, m, c1, n, o, c2, p, q] =>
    a.isDigit && b.isDigit && c.isDigit && d.isDigit && e == '-' &&
      f.isDigit && g.isDigit && h == '-' && i.isDigit && j.isDigit &&
      t == 'T' && k.isDigit && m.isDigit && c1 == ':' && n.isDigit &&
      o.isDigit && c2 == ':' && p.isDigit && q.isDigit
  | _ => false

/-- Third timestamp pattern: ISO datetime, anchored at the start only. -/
def matchIsoStart (l : List Char) : Bool :=
  isIso19 (l.take 19)

/-- sample.str.match(pattern).mean() > 0.7 for one pattern. -/
def dateRatioHigh (sample : List String) (pat : List Char → Bool) : Bool :=
  decide (7 * sample.length < 10 * (sample.countP fun v => pat v.toList))

/-- infer_bigquery_type from generate_cleaned_datasets.py, translated branch
by branch in source order.  Note on the INTEGER branch:
pd.to_numeric(sample, errors=raise).astype(int) truncates finite
non-integral floats instead of raising, so that branch succeeds exactly when
every sampled value parses as a number; the subsequent generic FLOAT branch
is consequently unreachable for finite values but is kept in source order. -/
def inferBigqueryType (values : List (Option String)) (columnName : String) : SchemaField :=
  let nonNull := nonNullValues values
  if nonNull.length = 0 then
    { name := columnName, type := "STRING", mode := "NULLABLE",
      description := "Column " ++ columnName ++ " (all null values)" }
  else
    let sample := nonNull.take 1000
    if columnName = "CompTotal" ∨ columnName = "ConvertedCompYearly" then
      { name := columnName, type := "FLOAT", mode := "NULLABLE",
        description := "Salary field: " ++ columnName ++ " (cleaned, outliers >1e9 removed)" }
    else if strStarts columnName "JobSatPoints_" then
      { name := columnName, type := "FLOAT", mode := "NULLABLE",
        description := "Job satisfaction points: " ++ columnName ++ " (decimal values)" }
    else if columnName = "ResponseId" then
      { name := columnName, type := "INTEGER", mode := "NULLABLE",
        description := "Response ID: " ++ columnName }
    else if sample.all fun v => (parseNumeric v).isSome then
      { name := columnName, type := "INTEGER", mode := "NULLABLE",
        description := "Integer column: " ++ columnName }
    else if (sample.all fun v => (parseNumeric v).isSome) &&
        !(sample.all fun v => isIntegralNumStr v) then
      { name := columnName, type := "FLOAT", mode := "NULLABLE",
        description := "Float column: " ++ columnName }
    else if ((sample.map fun v => strLower v).dedup.all fun v => boolTokens.contains v) &&
        decide ((sample.map fun v => strLower v).dedup.length ≤ 4) then
      { name := columnName, type := "BOOLEAN", mode := "NULLABLE",
        description := "Boolean column: " ++ columnName }
    else if dateRatioHigh sample ymdFull then
      { name := columnName, type := "TIMESTAMP", mode := "NULLABLE",
        description := "Timestamp column: " ++ columnName }
    else if dateRatioHigh sample mdyFull then
      { name := columnName, type := "TIMESTAMP", mode := "NULLABLE",
        description := "Timestamp column: " ++ columnName }
    else if dateRatioHigh sample matchIsoStart then
      { name := columnName, type := "TIMESTAMP", mode := "NULLABLE",
        description := "Timestamp column: " ++ columnName }
    else
      { name := columnName, type := "STRING", mode := "NULLABLE",
        description := "String column: " ++ columnName }

/-- The character class kept by the column-name cleaning regex (everything
outside [a-zA-Z0-9_] becomes an underscore). -/
def isCleanChar (c : Char) : Bool :=
  c.isAlpha || c.isDigit || c == '_'

def sanitizeChars (l : List Char) : List Char :=
  l.map fun c => if isCleanChar c then c else '_'

/-- re.sub of a leading digit: prepend col_ when the first character is a
digit. -/
def digitStartFix (l : List Char) : List Char :=
  match l with
  | [] => []
  | c :: _ => if c.isDigit then 'c' :: 'o' :: 'l' :: '_' :: l else l

/-- re.sub collapsing each run of underscores to one. -/
def collapseUnd : List Char → List Char
  | [] => []
  | [c] => [c]
  | c1 :: c2 :: rest =>
    if c1 == '_' && c2 == '_' then collapseUnd (c2 :: rest)
    else c1 :: collapseUnd (c2 :: rest)

/-- str.strip of underscores. -/
def stripUnd (l : List Char) : List Char :=
  (((l.dropWhile fun c => c == '_').reverse).dropWhile fun c => c == '_').reverse

/-- The per-name cleaning of clean_csv_for_bigquery, in source order:
sanitize, fix a leading digit, collapse underscores, strip underscores,
truncate to 128 characters. -/
def cleanColumnName (col : String) : String :=
  String.mk ((stripUnd (collapseUnd (digitStartFix (sanitizeChars col.toList)))).take 128)

/-- Little-endian decimal digit characters of n, with an explicit fuel bound
so that the kernel can evaluate it; proved below to agree with the Mathlib
digit list. -/
def decDigitsAux : Nat → Nat → List Char
  | _, 0 => []
  | 0, _ + 1 => []
  | fuel + 1, n + 1 => Nat.digitChar ((n + 1) % 10) :: decDigitsAux fuel ((n + 1) / 10)

/-- Decimal numeral of a natural number (the f-string formatting of the
duplicate counter). -/
def natToDecimal (n : Nat) : String :=
  if n = 0 then "0" else String.mk (decDigitsAux n n).reverse

/-- Candidate name tried for a duplicate: base_counter. -/
def candName (base : String) (k : Nat) : String :=
  base ++ "_" ++ natToDecimal k

/-- The duplicate-handling while loop: starting from counter 1, take the
first base_counter not among the previously assigned clean names.  A search
range of used.length + 1 counters always suffices (pigeonhole, proved
below), so the fallback arm is unreachable. -/
def disambiguate (base : String) (used : List String) : String :=
  if base ∈ used then
    match ((List.range (used.length + 1)).map fun i => candName base (i + 1)).find?
        (fun c => decide (c ∉ used)) with
    | some c => c
    | none => base
  else base

def cleanColumnsAux : List String → List String → List (String × String)
  | [], _ => []
  | c :: cs, used =>
    let final := disambiguate (cleanColumnName c) used
    (c, final) :: cleanColumnsAux cs (final :: used)

/-- The column-renaming association list built by clean_csv_for_bigquery
(raw name to cleaned name, in column order; the raw column names of a loaded
frame are unique, under which the Python dict and this list agree). -/
def cleanColumns (cols : List String) : List (String × String) :=
  cleanColumnsAux cols []

/-- No two adjacent underscores. -/
def noDoubleUnd : List Char → Bool
  | c1 :: c2 :: rest => !(c1 == '_' && c2 == '_') && noDoubleUnd (c2 :: rest)
  | _ => true

/-- Clean in the sense of the specification sentence: restricted character
set and no leading digit. -/
def claimClean (s : String) : Bool :=
  s.toList.all isCleanChar &&
    (match s.toList with
     | [] => true
     | c :: _ => !c.isDigit)

/-- Strictly clean: additionally no doubled underscore, no leading or
trailing underscore, at most 128 characters.  On these names the cleaning
transformation is the identity. -/
def isStrictClean (s : String) : Bool :=
  claimClean s && noDoubleUnd s.toList &&
    !(s.toList.head? == some '_') && !(s.toList.getLast? == some '_') &&
    decide (s.toList.length ≤ 128)

/-- The intersections record materialised by calculate_intersections of
generate_comprehensive_analysis.py over the three per-year column-name
sets. -/
structure CrossYearIntersections where
  all_three : Finset String
  inter_2023_2024 : Finset String
  inter_2023_2025 : Finset String
  inter_2024_2025 : Finset String
  union_all : Finset String
  only_2023 : Finset String
  only_2024 : Finset String
  only_2025 : Finset String
  inter_2023_2024_not_2025 : Finset String
  inter_2023_2025_not_2024 : Finset String
  inter_2024_2025_not_2023 : Finset String

def calculateIntersections (cols2023 cols2024 cols2025 : Finset String) :
    CrossYearIntersections :=
  { all_three := cols2023 ∩ cols2024 ∩ cols2025
    inter_2023_2024 := cols2023 ∩ cols2024
    inter_2023_2025 := cols2023 ∩ cols2025
    inter_2024_2025 := cols2024 ∩ cols2025
    union_all := cols2023 ∪ cols2024 ∪ cols2025
    only_2023 := (cols2023 \ cols2024) \ cols2025
    only_2024 := (cols2024 \ cols2023) \ cols2025
    only_2025 := (cols2025 \ cols2023) \ cols2024
    inter_2023_2024_not_2025 := (cols2023 ∩ cols2024) \ cols2025
    inter_2023_2025_not_2024 := (cols2023 ∩ cols2025) \ cols2024
    inter_2024_2025_not_2023 := (cols2024 ∩ cols2025) \ cols2023 }

/-! ## Helper lemmas -/

theorem dedupOfReplicate {α : Type} [DecidableEq α] (a : α) :
    ∀ n, n ≠ 0 → (List.replicate n a).dedup = [a]
  | 0, h => absurd rfl h
  | 1, _ => by simp
  | n + 2, _ => by
    rw [List.replicate_succ, List.dedup_cons_of_mem (by simp [List.mem_replicate])]
    exact dedupOfReplicate a (n + 1) (by omega)

/-! ## C9: soft error contract of structural_scan -/

/-- C9: for every failing file access, structural_scan returns (it never
propagates the exception in this total model) a record carrying the error
message together with an empty field-count histogram, an empty anomalous
map and no offender samples. -/
theorem structuralScanFile_soft_error (msg : String) (expectedIn : Option Nat) (cap : Nat) :
    (structuralScanFile (Except.error msg) expectedIn cap).error = some msg ∧
      (structuralScanFile (Except.error msg) expectedIn cap).fieldCounts = [] ∧
      histBuckets (structuralScanFile (Except.error msg) expectedIn cap) = [] ∧
      anomalousBuckets (structuralScanFile (Except.error msg) expectedIn cap) = [] ∧
      (structuralScanFile (Except.error msg) expectedIn cap).offending_examples = [] ∧
      (structuralScanFile (Except.error msg) expectedIn cap).total_lines = 0 :=
  ⟨rfl, rfl, rfl, rfl, rfl, rfl⟩

/-! ## C8: set laws of the cross-year intersections -/

/-- C8: the materialised three-way intersection is invariant under
reassigning the per-year sets (transpositions generate every reordering),
and it is contained in each materialised pairwise intersection. -/
theorem calculateIntersections_laws (A B C : Finset String) :
    (calculateIntersections A B C).all_three = (calculateIntersections C B A).all_three ∧
      (calculateIntersections A B C).all_three = (calculateIntersections B A C).all_three ∧
      (calculateIntersections A B C).all_three ⊆ (calculateIntersections A B C).inter_2023_2024 ∧
      (calculateIntersections A B C).all_three ⊆ (calculateIntersections A B C).inter_2023_2025 ∧
      (calculateIntersections A B C).all_three ⊆ (calculateIntersections A B C).inter_2024_2025 := by
  refine ⟨?_, ?_, ?_, ?_, ?_⟩
  · show A ∩ B ∩ C = C ∩ B ∩ A
    ext x
    simp only [Finset.mem_inter]
    tauto
  · show A ∩ B ∩ C = B ∩ A ∩ C
    ext x
    simp only [Finset.mem_inter]
    tauto
  · intro x hx
    simp only [calculateIntersections, Finset.mem_inter] at hx ⊢
    tauto
  · intro x hx
    simp only [calculateIntersections, Finset.mem_inter] at hx ⊢
    tauto
  · intro x hx
    simp only [calculateIntersections, Finset.mem_inter] at hx ⊢
    tauto

/-! ## C7: the numeric flag is an existence test -/

/-- C7: is_numeric is true exactly when at least one non-null value of the
column parses as a number; one numeric-looking value suffices, it is not a
majority vote. -/
theorem columnIsNumeric_iff (vals : List (Option String)) :
    columnIsNumeric vals = true ↔ ∃ s, some s ∈ vals ∧ (parseNumeric s).isSome = true := by
  unfold columnIsNumeric
  rw [decide_eq_true_iff, List.countP_pos_iff]
  constructor
  · rintro ⟨o, ho, hp⟩
    rw [List.mem_map] at ho
    obtain ⟨v, hv, rfl⟩ := ho
    match v with
    | none => simp at hp
    | some s => exact ⟨s, hv, by simpa using hp⟩
  · rintro ⟨s, hs, hp⟩
    refine ⟨(some s).bind parseNumeric, List.mem_map_of_mem _ hs, ?_⟩
    simpa using hp

/-! ## C6: the numeric and date flags exclude each other -/

/-- C6: for every profiled column (and every sample the seeded sampler may
draw), is_numeric and looks_like_date are never both true, because the date
check only runs when numeric coercion found no parseable value. -/
theorem columnFlags_exclusive (vals : List (Option String)) (pick : List Nat) :
    (columnIsNumeric vals && columnLooksDate vals pick) = false := by
  unfold columnLooksDate
  by_cases h : columnIsNumeric vals = true
  · simp [h]
  · simp [Bool.eq_false_iff.mpr h]

/-! ## C2: well-formed files give a one-bucket histogram -/

/-- C2 (amended): for a well-formed csv whose data rows all have the
header's field count and which has at least one data row, the field-count
histogram has exactly the one bucket of the expected count, with frequency
the number of data rows, and the anomalous map is empty.  (With zero data
rows the Counter is empty, so the histogram has no bucket at all; see the
counterexample.) -/
theorem structuralScan_wellFormed_histogram (header : List String)
    (data : List (List String)) (cap : Nat)
    (hne : data ≠ []) (hall : ∀ r ∈ data, r.length = header.length) :
    histBuckets (structuralScanRows (header :: data) none cap) = [header.length] ∧
      histCount (structuralScanRows (header :: data) none cap) header.length = data.length ∧
      anomalousBuckets (structuralScanRows (header :: data) none cap) = [] ∧
      ∀ n, anomalousCount (structuralScanRows (header :: data) none cap) n = 0 := by
  have hmap : data.map List.length = List.replicate data.length header.length := by
    have := List.eq_replicate_of_mem (l := data.map List.length) (a := header.length) ?_
    · simpa using this
    · intro b hb
      rw [List.mem_map] at hb
      obtain ⟨r, hr, rfl⟩ := hb
      exact hall r hr
  have hN : data.length ≠ 0 := by
    simpa [List.length_eq_zero] using hne
  have hdedup : (data.map List.length).dedup = [header.length] := by
    rw [hmap]
    exact dedupOfReplicate _ _ hN
  refine ⟨?_, ?_, ?_, ?_⟩
  · simpa [structuralScanRows, histBuckets] using hdedup
  · simp only [structuralScanRows, histCount]
    rw [hmap]
    exact List.count_replicate_self _ _
  · simp only [structuralScanRows, anomalousBuckets]
    rw [hdedup]
    simp
  · intro n
    simp only [structuralScanRows, anomalousCount]
    by_cases hn : header.length = n
    · simp [hn]
    · rw [if_neg (by simpa using hn), hmap, List.count_replicate]
      simp [hn]

/-- C2 witness: a concrete two-column file with one well-formed data row. -/
theorem structuralScan_wellFormed_histogram_witness :
    histBuckets (structuralScanRows [["a", "b"], ["1", "2"]] none 5) = [2] ∧
      histCount (structuralScanRows [["a", "b"], ["1", "2"]] none 5) 2 = 1 ∧
      anomalousBuckets (structuralScanRows [["a", "b"], ["1", "2"]] none 5) = [] ∧
      anomalousCount (structuralScanRows [["a", "b"], ["1", "2"]] none 5) 3 = 0 := by
  have h := structuralScan_wellFormed_histogram ["a", "b"] [["1", "2"]] 5
    (by decide) (by decide)
  exact ⟨h.1, h.2.1, h.2.2.1, h.2.2.2 3⟩

/-- C2 counterexample to the unamended claim: a well-formed file with zero
data rows (every data row vacuously has the header's field count) yields a
histogram with no bucket, not one bucket keyed by the expected count. -/
theorem structuralScan_wellFormed_histogram_counterexample :
    (structuralScanRows [["a", "b"]] none 5).expected_ncols = some 2 ∧
      histBuckets (structuralScanRows [["a", "b"]] none 5) = [] ∧
      histBuckets (structuralScanRows [["a", "b"]] none 5) ≠ [2] := by
  refine ⟨rfl, rfl, by decide⟩

/-! ## C1: integer columns and the salary overrides -/

/-- C1 (amended): consider a column whose sampled values (head 1000 of the
non-empty, non-null stringified values) all parse as integral numbers and
which has at least one such value.  If its name is one of the two hardcoded
salary fields the inferred type is FLOAT; otherwise, unless the name carries
the JobSatPoints_ points-suffix override (also FLOAT by policy), the
inferred type is INTEGER and never FLOAT.  (The unamended claim put the
salary override before the all-null check and omitted the points override;
both corrections are forced by the counterexample below.) -/
theorem inferBigqueryType_integer_salary_policy (values : List (Option String))
    (columnName : String)
    (hne : nonNullValues values ≠ [])
    (hint : ∀ v ∈ (nonNullValues values).take 1000, isIntegralNumStr v = true) :
    ((columnName = "CompTotal" ∨ columnName = "ConvertedCompYearly") →
        (inferBigqueryType values columnName).type = "FLOAT") ∧
      (columnName ≠ "CompTotal" → columnName ≠ "ConvertedCompYearly" →
        strStarts columnName "JobSatPoints_" = false →
        (inferBigqueryType values columnName).type = "INTEGER") := by
  have hlen : ¬ (nonNullValues values).length = 0 := by
    simpa [List.length_eq_zero] using hne
  have hnum : ((nonNullValues values).take 1000).all (fun v => (parseNumeric v).isSome) = true := by
    rw [List.all_eq_true]
    intro v hv
    have h := hint v hv
    unfold isIntegralNumStr at h
    match hp : parseNumeric v with
    | some x => simp [hp]
    | none => rw [hp] at h; cases h
  constructor
  · intro hsal
    unfold inferBigqueryType
    rw [if_neg hlen, if_pos hsal]
  · intro h1 h2 h3
    unfold inferBigqueryType
    rw [if_neg hlen, if_neg (by tauto), if_neg (by simp [h3])]
    by_cases hr : columnName = "ResponseId"
    · rw [if_pos hr]
    · rw [if_neg hr, if_pos hnum]

/-- C1 witness: a column of the integer strings 1 and 2, once under the
salary name CompTotal (FLOAT) and once under the generic name Age
(INTEGER). -/
theorem inferBigqueryType_integer_salary_policy_witness :
    (inferBigqueryType [some "1", some "2"] "CompTotal").type = "FLOAT" ∧
      (inferBigqueryType [some "1", some "2"] "Age").type = "INTEGER" :=
  ⟨(inferBigqueryType_integer_salary_policy [some "1", some "2"] "CompTotal"
      (by decide) (by decide)).1 (Or.inl rfl),
    (inferBigqueryType_integer_salary_policy [some "1", some "2"] "Age"
      (by decide) (by decide)).2 (by decide) (by decide) (by decide)⟩

/-- C1 counterexample to the unamended claim: an all-null CompTotal column
is typed STRING, not FLOAT (the all-null check precedes the salary-name
override in the source), and an all-integer JobSatPoints_ column is typed
FLOAT although its name is not one of the two salary fields. -/
theorem inferBigqueryType_salary_override_counterexample :
    (inferBigqueryType [none] "CompTotal").type = "STRING" ∧
      (inferBigqueryType [none] "CompTotal").type ≠ "FLOAT" ∧
      (inferBigqueryType [some "1", some "2"] "JobSatPoints_AIOpen").type = "FLOAT" ∧
      (inferBigqueryType [some "1", some "2"] "JobSatPoints_AIOpen").type ≠ "INTEGER" := by
  refine ⟨rfl, by decide, by decide, by decide⟩

/-! ## C3: anomalous rows and the offender sample cap -/

theorem offendersAux_line_lb (expected : Option Nat) (cap : Nat) :
    ∀ (rs : List (List String)) (i k : Nat) (o : Offender),
      o ∈ offendersAux expected cap rs i k → i + 1 ≤ o.line_number := by
  intro rs
  induction rs with
  | nil =>
    intro i k o h
    simp [offendersAux] at h
  | cons r rs ih =>
    intro i k o h
    rw [offendersAux] at h
    by_cases hc : offenderCond expected r.length k cap = true
    · rw [if_pos hc] at h
      rcases List.mem_cons.mp h with rfl | hmem
      · exact Nat.le_refl _
      · have := ih (i + 1) (k + 1) o hmem
        omega
    · rw [if_neg hc] at h
      have := ih (i + 1) k o h
      omega

theorem offendersAux_length_le (expected : Option Nat) (cap : Nat) :
    ∀ (rs : List (List String)) (i k : Nat),
      (offendersAux expected cap rs i k).length ≤ cap - k := by
  intro rs
  induction rs with
  | nil =>
    intro i k
    simp [offendersAux]
  | cons r rs ih =>
    intro i k
    rw [offendersAux]
    by_cases hc : offenderCond expected r.length k cap = true
    · have hk : k < cap := by
        unfold offenderCond at hc
        match expected with
        | none => cases hc
        | some e => simp only [Bool.and_eq_true, decide_eq_true_iff] at hc; exact hc.2
      rw [if_pos hc]
      have := ih (i + 1) (k + 1)
      simp only [List.length_cons]
      omega
    · rw [if_neg hc]
      have := ih (i + 1) k
      omega

theorem offendersAux_mem_iff (e : Nat) (cap : Nat) (he : e ≠ 0)
    (R : List String) (hR : R.length ≠ e) (post : List (List String)) :
    ∀ (pre : List (List String)) (i k : Nat),
      ((⟨i + pre.length + 1, R.length, R.take 5⟩ : Offender) ∈
          offendersAux (some e) cap (pre ++ R :: post) i k) ↔
        k + pre.countP (fun r => decide (r.length ≠ e)) < cap := by
  intro pre
  induction pre with
  | nil =>
    intro i k
    simp only [List.nil_append, List.length_nil, Nat.add_zero, List.countP_nil]
    rw [offendersAux]
    by_cases hk : k < cap
    · have hc : offenderCond (some e) R.length k cap = true := by
        simp [offenderCond, he, hR, hk]
      rw [if_pos hc]
      constructor
      · intro _
        exact hk
      · intro _
        exact List.mem_cons_self _ _
    · have hc : ¬ offenderCond (some e) R.length k cap = true := by
        simp [offenderCond, hk]
      rw [if_neg hc]
      constructor
      · intro hmem
        have := offendersAux_line_lb (some e) cap post (i + 1) k _ hmem
        simp at this
      · intro h
        omega
  | cons p pre ih =>
    intro i k
    simp only [List.cons_append, List.length_cons]
    rw [offendersAux]
    have hih := ih (i + 1) k
    have hih1 := ih (i + 1) (k + 1)
    have harith : i + 1 + pre.length + 1 = i + (pre.length + 1) + 1 := by omega
    rw [harith] at hih hih1
    by_cases hp : p.length ≠ e
    · have hcount : List.countP (fun r => decide (r.length ≠ e)) (p :: pre) =
          List.countP (fun r => decide (r.length ≠ e)) pre + 1 := by
        rw [List.countP_cons]
        simp [hp]
      by_cases hk : k < cap
      · have hc : offenderCond (some e) p.length k cap = true := by
          simp [offenderCond, he, hp, hk]
        rw [if_pos hc]
        rw [List.mem_cons]
        have hne : ¬ ((⟨i + (pre.length + 1) + 1, R.length, R.take 5⟩ : Offender) =
            ⟨i + 1, p.length, p.take 5⟩) := by
          intro hcontra
          have : i + (pre.length + 1) + 1 = i + 1 := congrArg Offender.line_number hcontra
          omega
        rw [hih1, hcount]
        constructor
        · rintro (hcontra | h)
          · exact absurd hcontra hne
          · omega
        · intro h
          exact Or.inr (by omega)
      · have hc : ¬ offenderCond (some e) p.length k cap = true := by
          simp [offenderCond, hk]
        rw [if_neg hc]
        rw [hih, hcount]
        constructor
        · intro h
          omega
        · intro h
          omega
    · have hcount : List.countP (fun r => decide (r.length ≠ e)) (p :: pre) =
          List.countP (fun r => decide (r.length ≠ e)) pre := by
        rw [List.countP_cons]
        simp [hp]
      have hc : ¬ offenderCond (some e) p.length k cap = true := by
        simp [offenderCond, hp]
      rw [if_neg hc]
      rw [hih, hcount]

/-- C3 (amended): for a file with a non-empty header row containing a data
row R whose field count differs from the header-derived expected count, the
anomalous map records R's field count with frequency at least one, R (with
its line number, field count and first-five-field preview) is in the
offender sample exactly when fewer than the cap of offenders were recorded
before it was reached, and the sample never exceeds the cap however many
anomalous rows occur.  (The non-empty-header proviso is forced: a blank
header row makes the expected count 0, which the Python truthiness guard
`if expected_ncols and ...` treats as false, so no offender is ever
recorded although the anomalous map still fills; see the counterexample.) -/
theorem structuralScan_offender_policy (header R : List String)
    (pre post : List (List String)) (cap : Nat)
    (hh : header ≠ []) (hR : R.length ≠ header.length) :
    1 ≤ anomalousCount (structuralScanRows (header :: (pre ++ R :: post)) none cap) R.length ∧
      ((⟨pre.length + 2, R.length, R.take 5⟩ : Offender) ∈
          (structuralScanRows (header :: (pre ++ R :: post)) none cap).offending_examples ↔
        pre.countP (fun r => decide (r.length ≠ header.length)) < cap) ∧
      (structuralScanRows (header :: (pre ++ R :: post)) none cap).offending_examples.length ≤ cap := by
  have he : header.length ≠ 0 := by
    simpa [List.length_eq_zero] using hh
  refine ⟨?_, ?_, ?_⟩
  · simp only [structuralScanRows, anomalousCount]
    rw [if_neg (by simpa using fun hcontra => hR hcontra.symm)]
    have hmem : R.length ∈ (pre ++ R :: post).map List.length :=
      List.mem_map_of_mem _ (by simp)
    exact List.count_pos_iff.mpr hmem
  · have h := offendersAux_mem_iff header.length cap he R hR post pre 1 0
    have harith : 1 + pre.length + 1 = pre.length + 2 := by omega
    rw [harith] at h
    simpa [structuralScanRows] using h
  · simpa [structuralScanRows] using
      offendersAux_length_le (some header.length) cap (pre ++ R :: post) 1 0

/-- C3 counterexample to the unamended claim: a file whose header row is
blank (csv.reader yields an empty row, so the expected count is 0).  Its
one-field data row is counted in the anomalous map, zero offenders have
been recorded and the cap is 5, yet the row is not appended to
offending_examples, refuting the claimed if-and-only-if. -/
theorem structuralScan_offender_policy_counterexample :
    (structuralScanRows [[], ["x"]] none 5).expected_ncols = some 0 ∧
      1 ≤ anomalousCount (structuralScanRows [[], ["x"]] none 5) 1 ∧
      (structuralScanRows [[], ["x"]] none 5).offending_examples = [] ∧
      ¬ ((⟨2, 1, ["x"]⟩ : Offender) ∈
            (structuralScanRows [[], ["x"]] none 5).offending_examples ↔
          ([] : List (List String)).countP (fun r => decide (r.length ≠ 0)) < 5) :=
  ⟨rfl, by decide, rfl, by decide⟩

/-- C3 witness: header of two columns, first data row has one field. -/
theorem structuralScan_offender_policy_witness :
    1 ≤ anomalousCount (structuralScanRows [["a", "b"], ["x"]] none 5) 1 ∧
      ((⟨2, 1, ["x"]⟩ : Offender) ∈
          (structuralScanRows [["a", "b"], ["x"]] none 5).offending_examples ↔
        ([] : List (List String)).countP (fun r => decide (r.length ≠ 2)) < 5) ∧
      (structuralScanRows [["a", "b"], ["x"]] none 5).offending_examples.length ≤ 5 :=
  structuralScan_offender_policy ["a", "b"] ["x"] [] [] 5 (by decide) (by decide)

/-! ## C4 and C5: column-name cleaning -/

theorem decDigitsAux_eq (fuel : Nat) :
    ∀ n, n ≤ fuel → decDigitsAux fuel n = (Nat.digits 10 n).map Nat.digitChar := by
  induction fuel with
  | zero =>
    intro n hn
    interval_cases n
    simp [decDigitsAux]
  | succ fuel ih =>
    intro n hn
    match n with
    | 0 => simp [decDigitsAux]
    | m + 1 =>
      rw [decDigitsAux]
      rw [Nat.digits_def' (by norm_num : (1 : Nat) < 10) (Nat.succ_pos m), List.map_cons]
      congr 1
      have hdiv : (m + 1) / 10 < m + 1 := Nat.div_lt_self (Nat.succ_pos m) (by norm_num)
      exact ih ((m + 1) / 10) (by omega)

theorem digitCharInjOn {a b : Nat} (ha : a < 10) (hb : b < 10)
    (h : Nat.digitChar a = Nat.digitChar b) : a = b := by
  interval_cases a <;> interval_cases b <;> revert h <;> decide

theorem digitListMapInj : ∀ (l1 l2 : List Nat), (∀ d ∈ l1, d < 10) → (∀ d ∈ l2, d < 10) →
    l1.map Nat.digitChar = l2.map Nat.digitChar → l1 = l2 := by
  intro l1
  induction l1 with
  | nil =>
    intro l2 _ _ h
    cases l2 with
    | nil => rfl
    | cons b t => simp at h
  | cons a t1 ih =>
    intro l2 h1 h2 h
    cases l2 with
    | nil => simp at h
    | cons b t2 =>
      simp only [List.map_cons, List.cons.injEq] at h
      have hab : a = b :=
        digitCharInjOn (h1 a (by simp)) (h2 b (by simp)) h.1
      have ht : t1 = t2 :=
        ih t2 (fun d hd => h1 d (by simp [hd])) (fun d hd => h2 d (by simp [hd])) h.2
      rw [hab, ht]

theorem strDataInj {s t : String} (h : s.data = t.data) : s = t := by
  cases s
  cases t
  exact congrArg String.mk h

theorem natToDecimal_digits (n : Nat) (hn : n ≠ 0) :
    natToDecimal n = String.mk ((Nat.digits 10 n).map Nat.digitChar).reverse := by
  unfold natToDecimal
  rw [if_neg hn, decDigitsAux_eq n n (Nat.le_refl n)]

theorem natToDecimal_inj {m n : Nat} (h : natToDecimal m = natToDecimal n) : m = n := by
  have digitsEq : ∀ {a b : Nat}, a ≠ 0 → b ≠ 0 →
      natToDecimal a = natToDecimal b → a = b := by
    intro a b ha hb hab
    rw [natToDecimal_digits a ha, natToDecimal_digits b hb] at hab
    have hlists := congrArg String.data hab
    simp only [String.data] at hlists
    have hrev := List.reverse_injective hlists
    have hdig := digitListMapInj _ _
      (fun d hd => Nat.digits_lt_base (by norm_num) hd)
      (fun d hd => Nat.digits_lt_base (by norm_num) hd) hrev
    have := congrArg (Nat.ofDigits 10) hdig
    rwa [Nat.ofDigits_digits, Nat.ofDigits_digits] at this
  have zeroCase : ∀ {b : Nat}, natToDecimal 0 = natToDecimal b → b = 0 := by
    intro b hb
    by_contra hbz
    rw [natToDecimal_digits b hbz] at hb
    have hlists := congrArg String.data hb
    have h0 : ("0" : String).data = ['0'] := rfl
    simp only [natToDecimal, if_pos rfl, h0] at hlists
    have hrev : (Nat.digits 10 b).map Nat.digitChar = ['0'] := by
      have := congrArg List.reverse hlists
      simpa using this.symm
    have hdig : Nat.digits 10 b = [0] := by
      have : ([0] : List Nat).map Nat.digitChar = ['0'] := rfl
      exact digitListMapInj _ [0]
        (fun d hd => Nat.digits_lt_base (by norm_num) hd)
        (by intro d hd; simp at hd; omega) (by rw [hrev, this])
    have := congrArg (Nat.ofDigits 10) hdig
    rw [Nat.ofDigits_digits] at this
    simp [Nat.ofDigits] at this
    exact hbz this
  by_cases hm : m = 0
  · subst hm
    exact (zeroCase h).symm
  · by_cases hn : n = 0
    · subst hn
      exact absurd (zeroCase h.symm) hm
    · exact digitsEq hm hn h

theorem strDataAppend (s t : String) : (s ++ t).data = s.data ++ t.data :=
  rfl

theorem candName_inj (base : String) {j k : Nat} (h : candName base j = candName base k) :
    j = k := by
  unfold candName at h
  have hd := congrArg String.data h
  rw [strDataAppend, strDataAppend] at hd
  have := List.append_cancel_left hd
  exact natToDecimal_inj (strDataInj this)

theorem candListNodup (base : String) (used : List String) :
    ((List.range (used.length + 1)).map fun i => candName base (i + 1)).Nodup := by
  refine List.Nodup.map ?_ (List.nodup_range _)
  intro a b hab
  have := candName_inj base hab
  omega

theorem candFind_isSome (base : String) (used : List String) :
    (((List.range (used.length + 1)).map fun i => candName base (i + 1)).find?
      (fun c => decide (c ∉ used))).isSome = true := by
  cases hfind : ((List.range (used.length + 1)).map fun i => candName base (i + 1)).find?
      (fun c => decide (c ∉ used)) with
  | some c => rfl
  | none =>
    exfalso
    have hall := List.find?_eq_none.mp hfind
    have hsub : ((List.range (used.length + 1)).map fun i => candName base (i + 1)) ⊆ used := by
      intro c hc
      have := hall c hc
      simpa using this
    have hle := ((candListNodup base used).subperm hsub).length_le
    simp at hle

theorem disambiguate_not_mem (base : String) (used : List String) :
    disambiguate base used ∉ used := by
  unfold disambiguate
  by_cases hb : base ∈ used
  · rw [if_pos hb]
    obtain ⟨c, hc⟩ := Option.isSome_iff_exists.mp (candFind_isSome base used)
    rw [hc]
    have := List.find?_some hc
    simpa using this
  · rw [if_neg hb]
    exact hb

theorem disambiguate_suffix (base : String) (used : List String) (h : base ∈ used) :
    ∃ k, 1 ≤ k ∧ disambiguate base used = candName base k := by
  unfold disambiguate
  rw [if_pos h]
  obtain ⟨c, hc⟩ := Option.isSome_iff_exists.mp (candFind_isSome base used)
  rw [hc]
  have hmem := List.mem_of_find?_eq_some hc
  rw [List.mem_map] at hmem
  obtain ⟨i, _, rfl⟩ := hmem
  exact ⟨i + 1, by omega, rfl⟩

theorem cleanColumnsAux_nodup : ∀ (cols used : List String),
    (∀ o ∈ (cleanColumnsAux cols used).map Prod.snd, o ∉ used) ∧
      ((cleanColumnsAux cols used).map Prod.snd).Nodup := by
  intro cols
  induction cols with
  | nil =>
    intro used
    simp [cleanColumnsAux]
  | cons c cs ih =>
    intro used
    simp only [cleanColumnsAux, List.map_cons, List.nodup_cons]
    refine ⟨?_, ?_, ?_⟩
    · intro o ho
      rcases List.mem_cons.mp ho with rfl | hmem
      · exact disambiguate_not_mem _ _
      · have := (ih (disambiguate (cleanColumnName c) used :: used)).1 o hmem
        intro hu
        exact this (List.mem_cons_of_mem _ hu)
    · intro hmem
      have := (ih (disambiguate (cleanColumnName c) used :: used)).1 _ hmem
      exact this (List.mem_cons_self _ _)
    · exact (ih (disambiguate (cleanColumnName c) used :: used)).2

theorem sanitizeOfClean : ∀ l : List Char, (∀ c ∈ l, isCleanChar c = true) → sanitizeChars l = l
  | [], _ => rfl
  | c :: cs, h => by
    have hc : isCleanChar c = true := h c (by simp)
    have ht := sanitizeOfClean cs fun d hd => h d (by simp [hd])
    unfold sanitizeChars at ht ⊢
    rw [List.map_cons, ht]
    simp [hc]

theorem digitStartFixId : ∀ l : List Char,
    (match l with | [] => true | c :: _ => !c.isDigit) = true → digitStartFix l = l
  | [], _ => rfl
  | c :: cs, h => by
    have hc : c.isDigit = false := by simpa using h
    simp [digitStartFix, hc]

theorem collapseUndOfNoDouble : ∀ l : List Char, noDoubleUnd l = true → collapseUnd l = l
  | [], _ => rfl
  | [_], _ => rfl
  | c1 :: c2 :: rest, h => by
    rw [noDoubleUnd] at h
    simp only [Bool.and_eq_true] at h
    have hcond : (c1 == '_' && c2 == '_') = false := by
      cases hb : (c1 == '_' && c2 == '_')
      · rfl
      · rw [hb] at h
        simp at h
    have ht := collapseUndOfNoDouble (c2 :: rest) h.2
    rw [collapseUnd, if_neg (by simp [hcond]), ht]

theorem dropWhileUndSelf : ∀ l : List Char,
    l.head? ≠ some '_' → l.dropWhile (fun c => c == '_') = l
  | [], _ => rfl
  | c :: cs, h => by
    have hne : c ≠ '_' := by simpa using h
    rw [List.dropWhile_cons_of_neg (by simp [hne])]

theorem stripUndOfEnds (l : List Char) (h1 : l.head? ≠ some '_') (h2 : l.getLast? ≠ some '_') :
    stripUnd l = l := by
  unfold stripUnd
  rw [dropWhileUndSelf l h1]
  rw [dropWhileUndSelf l.reverse (by rwa [List.head?_reverse])]
  exact List.reverse_reverse l

theorem cleanColumnName_id_of_strictClean (s : String) (h : isStrictClean s = true) :
    cleanColumnName s = s := by
  unfold isStrictClean at h
  simp only [Bool.and_eq_true] at h
  obtain ⟨⟨⟨⟨hclaim, hnd⟩, hh⟩, hl⟩, hlen⟩ := h
  unfold claimClean at hclaim
  simp only [Bool.and_eq_true, List.all_eq_true] at hclaim
  obtain ⟨hall, hhead⟩ := hclaim
  unfold cleanColumnName
  rw [sanitizeOfClean _ hall]
  rw [digitStartFixId _ hhead]
  rw [collapseUndOfNoDouble _ hnd]
  rw [stripUndOfEnds _ (by simpa using hh) (by simpa using hl)]
  rw [List.take_of_length_le (by simpa using hlen)]
  exact strDataInj rfl

/-- C4 (amended): column-name cleaning is deterministic (a pure function of
the input list), collision-safe (the output names of one file are pairwise
distinct, a colliding name receiving the numeric suffix base_counter), and
the identity on names that are strictly clean: restricted character set, no
leading digit, no doubled underscore, no leading or trailing underscore, at
most 128 characters.  (The unamended claim required only the restricted
character set and no leading digit, on which cleaning is not a no-op; see
the counterexample.) -/
theorem cleanColumns_det_inj_idem (cols cols2 : List String) (base : String)
    (used : List String) (name : String)
    (hb : base ∈ used) (hclean : isStrictClean name = true) :
    (cols = cols2 → cleanColumns cols = cleanColumns cols2) ∧
      ((cleanColumns cols).map Prod.snd).Nodup ∧
      (∃ k, 1 ≤ k ∧ disambiguate base used = candName base k ∧
        disambiguate base used ∉ used) ∧
      cleanColumnName name = name := by
  refine ⟨?_, ?_, ?_, ?_⟩
  · intro h
    rw [h]
  · exact (cleanColumnsAux_nodup cols []).2
  · obtain ⟨k, hk1, hk2⟩ := disambiguate_suffix base used hb
    exact ⟨k, hk1, hk2, disambiguate_not_mem base used⟩
  · exact cleanColumnName_id_of_strictClean name hclean

/-- C4 witness: two raw names cleaning to the same base, a name already in
use, and a strictly clean name. -/
theorem cleanColumns_det_inj_idem_witness :
    ((["a!", "a?"] : List String) = ["a!", "a?"] →
        cleanColumns ["a!", "a?"] = cleanColumns ["a!", "a?"]) ∧
      ((cleanColumns ["a!", "a?"]).map Prod.snd).Nodup ∧
      (∃ k, 1 ≤ k ∧ disambiguate "a" ["a"] = candName "a" k ∧
        disambiguate "a" ["a"] ∉ (["a"] : List String)) ∧
      cleanColumnName "a_b" = "a_b" :=
  cleanColumns_det_inj_idem ["a!", "a?"] ["a!", "a?"] "a" ["a"] "a_b"
    (by decide) (by decide)

/-- C4 counterexample to the unamended claim: the name a__b consists only of
letters, digits and underscores and does not start with a digit, yet the
cleaning transformation collapses its doubled underscore, so re-running
cleaning on it is not a no-op. -/
theorem cleanColumns_idem_counterexample :
    claimClean "a__b" = true ∧ cleanColumnName "a__b" = "a_b" ∧
      cleanColumnName "a__b" ≠ "a__b" :=
  ⟨by decide, by decide, by decide⟩

set_option maxRecDepth 8000 in
/-- C5 (code bug evidence): the digit-start fix runs before the underscore
strip, so the raw name _1abc cleans to 1abc, which starts with a digit and
violates the restricted-name contract stated in the source's own comment;
and a duplicated 128-character name receives the suffix _1, producing a
130-character output beyond the stated 128-character maximum. -/
theorem cleanColumnName_digit_start_bug :
    cleanColumnName "_1abc" = "1abc" ∧
      claimClean "1abc" = false ∧
      (cleanColumns [String.mk (List.replicate 128 'a'),
            String.mk (List.replicate 129 'a')]).map Prod.snd =
        [String.mk (List.replicate 128 'a'),
          String.mk (List.replicate 128 'a' ++ ['_', '1'])] ∧
      (String.mk (List.replicate 128 'a' ++ ['_', '1'])).length = 130 :=
  ⟨by decide, by decide, by decide, by decide⟩

/-! ## C10: the date pattern is a pure prefix test on its first alternative -/

theorem isYmd10_length (l : List Char) (h : isYmd10 l = true) : l.length = 10 := by
  unfold isYmd10 at h
  split at h
  · simp_all
  · cases h

theorem matchYmdStart_append (l t : List Char) (h : matchYmdStart l = true) :
    matchYmdStart (l ++ t) = true := by
  unfold matchYmdStart at h ⊢
  have hlen : (l.take 10).length = 10 := isYmd10_length _ h
  have hle : 10 ≤ l.length := by
    rw [List.length_take] at hlen
    omega
  rw [List.take_append_of_le_length hle]
  exact h

/-- C10: a value that merely begins with the ten-character YYYY-MM-DD shape
matches the looks_like_date pattern no matter what trailing characters
follow (the dollar anchors only the second alternative and re.match anchors
only at the start); hence a column whose non-null values all begin with that
shape is flagged looks_like_date, whichever sample of it the seeded sampler
draws. -/
theorem looksLikeDate_prefix_policy (s t : String) (vals : List (Option String))
    (pick : List Nat)
    (hs : matchYmdStart s.toList = true)
    (hpick : pick ≠ [])
    (hbound : ∀ i ∈ pick, i < ((vals.filterMap id).take 5000).length)
    (hall : ∀ v ∈ (vals.filterMap id).take 5000, matchYmdStart v.toList = true) :
    matchesDatePat (s ++ t) = true ∧ looksLikeDate vals pick = true := by
  constructor
  · unfold matchesDatePat
    have happ : (s ++ t).toList = s.toList ++ t.toList := strDataAppend s t
    rw [happ, matchYmdStart_append _ _ hs]
    simp
  · have hsv : ((vals.filterMap id).take 5000).isEmpty = false := by
      cases hp : pick with
      | nil => exact absurd hp hpick
      | cons p ps =>
        have hplt := hbound p (by rw [hp]; exact List.mem_cons_self _ _)
        rw [List.isEmpty_eq_false]
        intro hnil
        rw [hnil] at hplt
        simp at hplt
    simp only [looksLikeDate]
    rw [hsv]
    simp only [Bool.false_eq_true, if_false]
    set sv := (vals.filterMap id).take 5000 with hsvdef
    have hchosen : ∀ v ∈ pick.filterMap fun i => sv[i]?, matchesDatePat v = true := by
      intro v hv
      rw [List.mem_filterMap] at hv
      obtain ⟨i, _, hget⟩ := hv
      have hvmem : v ∈ sv := List.getElem?_mem hget
      unfold matchesDatePat
      rw [hall v hvmem]
      simp
    have hcount : ((pick.filterMap fun i => sv[i]?).countP fun v => matchesDatePat v) =
        (pick.filterMap fun i => sv[i]?).length :=
      List.countP_eq_length.mpr hchosen
    have hpos : 0 < (pick.filterMap fun i => sv[i]?).length := by
      cases hp : pick with
      | nil => exact absurd hp hpick
      | cons p ps =>
        have hplt := hbound p (by rw [hp]; exact List.mem_cons_self _ _)
        have : sv[p]? = some sv[p] := List.getElem?_eq_getElem hplt
        simp [List.filterMap_cons, this]
    rw [decide_eq_true_iff, hcount]
    omega

/-- C10 witness: a single-value column whose value is a YYYY-MM-DD prefix
followed by arbitrary text, sampled at position zero. -/
theorem looksLikeDate_prefix_policy_witness :
    matchesDatePat ("2023-01-01" ++ " plus arbitrary text") = true ∧
      looksLikeDate [some "2023-01-01 plus arbitrary text"] [0] = true :=
  looksLikeDate_prefix_policy "2023-01-01" " plus arbitrary text"
    [some "2023-01-01 plus arbitrary text"] [0]
    (by decide) (by decide) (by decide) (by decide)
